import Mathlib

/-!
Verification of the AWS-batch orchestration pipeline in
`examples/hcp_aws_batch/tools/pyafq_hcp/docker/` (pyAFQ repository):
`submit_batch_job.py`, `create_job_queue.py`, `iam_role.py`,
`build_push_repo.py`.  Python strings are modelled as Lean `String`,
Python ints as `Nat` (all quantities involved are non-negative), the
cloud provider (AWS) as explicit state / oracle parameters, and
exceptions as `Except` or early-exit branches.
-/

namespace PyAFQ

/-- Model of Python `str.lower` on one character (ASCII range; the
resource names produced by the pipeline are ASCII). -/
def lowerChar (c : Char) : Char :=
  if 'A' ≤ c ∧ c ≤ 'Z' then Char.ofNat (c.toNat + 32) else c

/-- Model of Python `str.lower`. -/
def pyLower (s : String) : String :=
  String.mk (s.data.map lowerChar)

/-- Decimal digit character for `d < 10`. -/
def digitChar (d : Nat) : Char := Char.ofNat (48 + d)

/-- Fuel-based worker computing the decimal digits of a natural number,
most-significant first (model of Python `str(n)` for `n ≥ 0`). -/
def natDigitsAux : Nat → Nat → List Char
  | 0, _ => []
  | fuel + 1, n =>
    if n < 10 then [digitChar n]
    else natDigitsAux fuel (n / 10) ++ [digitChar (n % 10)]

/-- Decimal digits of `n`, most-significant first. -/
def natDigits (n : Nat) : List Char := natDigitsAux (n + 1) n

/-- Model of Python `str(n)` for a non-negative integer `n`. -/
def pyStr (n : Nat) : String := String.mk (natDigits n)

/-- Fuel-based worker for `⌊log10 n⌋` (model of Python
`int(math.log10(n))` for `n ≥ 1`, where the float computation is exact
on the values the pipeline uses). -/
def log10fAux : Nat → Nat → Nat
  | 0, _ => 0
  | fuel + 1, n =>
    if n < 10 then 0
    else log10fAux fuel (n / 10) + 1

/-- Integer part of `log10 n` for `n ≥ 1`. -/
def log10f (n : Nat) : Nat := log10fAux (n + 1) n

/-- Zero-pad width used by `submit_batch_job.py` line 158:
`int(math.log10(range_max) + 1)`. -/
def padWidth (range_max : Nat) : Nat := log10f range_max + 1

/-- Model of the Python zero-pad integer format of width `w`:
decimal representation of `n`, left-padded with zeros to width `w`
(never truncated). -/
def padNum (w n : Nat) : String :=
  String.mk (List.replicate (w - (natDigits n).length) '0' ++ natDigits n)

/-! Resource naming, `submit_batch_job.py` lines 95-103.  The run's
timestamp suffix is computed once from the wall clock (date plus
time-of-day truncated to whole seconds) and shared by every name. -/

/-- Wall-clock instant as observed by Python `datetime.now()`. -/
structure PyInstant where
  year : Nat
  month : Nat
  day : Nat
  hour : Nat
  minute : Nat
  second : Nat
  microsecond : Nat
deriving DecidableEq

/-- Timestamp suffix of `submit_batch_job.py` lines 96-97:
`str(date)` is `YYYY-MM-DD` and loses its hyphens, `str(time)` is
`HH:MM:SS.ffffff`, keeps only the part before the dot (dropping
microseconds) and loses its colons.  The two `datetime.now()` calls of
the source are modelled as one instant. -/
def time_stamp (t : PyInstant) : String :=
  padNum 4 t.year ++ padNum 2 t.month ++ padNum 2 t.day ++ "-"
    ++ padNum 2 t.hour ++ padNum 2 t.minute ++ padNum 2 t.second

/-- Repository name, `submit_batch_job.py` line 99 (lower-cased). -/
def repo_name (nbs ts : String) : String :=
  pyLower ("awsbatch/" ++ nbs ++ "-repo-" ++ ts)

/-- Job-role name, `submit_batch_job.py` line 100. -/
def job_role_name (nbs ts : String) : String := nbs ++ "-batch-job-role-" ++ ts

/-- Job-definition name, `submit_batch_job.py` line 101. -/
def job_def_name (nbs ts : String) : String := nbs ++ "-batch-job-def-" ++ ts

/-- Job-queue name, `submit_batch_job.py` line 102. -/
def job_queue_name (nbs ts : String) : String :=
  nbs ++ "-batch-job-queue-" ++ ts

/-- Job-name base, `submit_batch_job.py` line 103. -/
def job_name_base (nbs ts : String) : String := nbs ++ "-batch-job-" ++ ts

/-- All five derived resource names of one orchestrator run. -/
def run_names (nbs ts : String) : List String :=
  [repo_name nbs ts, job_role_name nbs ts, job_def_name nbs ts,
    job_queue_name nbs ts, job_name_base nbs ts]

/-! Environment-variable handling, `submit_batch_job.py` lines 142-152. -/

/-- Pairing of the flat alternating token list, modelling
`zip(l[0::2], l[1::2])` (line 148). -/
def pairs : List String → List (String × String)
  | a :: b :: rest => (a, b) :: pairs rest
  | _ => []

/-- Environment-variable stage of `main` (lines 142-152): an empty token
list yields no variables; a non-empty list must have even length
(`assert len(args.env_vars) % 2 == 0`, line 146) or the program aborts
with an `AssertionError` before any submission; an even list is paired
into name/value records. -/
def build_env_vars (tokens : List String) :
    Except String (List (String × String)) :=
  if tokens = [] then Except.ok []
  else if tokens.length % 2 = 0 then Except.ok (pairs tokens)
  else Except.error
    "number of entries on environment variable list should be even"

/-! Fan-out submission loop, `submit_batch_job.py` lines 154-160.  The
source fixes `range_max = 10`; the loop is embedded with the bound as a
parameter so the spec's concrete counts can be evaluated.  Note that the
source MUTATES `job_name` across iterations: each iteration appends a
hyphen and the padded index to the previous iteration's name. -/

/-- Loop bound hard-coded at `submit_batch_job.py` line 154. -/
def range_max : Nat := 10

/-- One iteration of the submission loop (lines 155-160): build the
command list, extend the accumulated job name, record the submission. -/
def submitStep (rm : Nat) (acc : String × List (String × List String))
    (index : Nat) : String × List (String × List String) :=
  let commands := ["--index", pyStr index]
  let name := acc.1 ++ "-" ++ padNum (padWidth rm) index
  (name, acc.2 ++ [(name, commands)])

/-- Submission loop over `range(rm)` starting from the run's job-name
base: the (job name, command list) of each `submit_job` call, in
submission order. -/
def submitLoop (base : String) (rm : Nat) : List (String × List String) :=
  ((List.range rm).foldl (submitStep rm) (base, [])).2

/-- Job names submitted by the fan-out loop, in submission order. -/
def jobNames (base : String) (rm : Nat) : List String :=
  (submitLoop base rm).map (fun p => p.1)

/-- Padded index suffixes generated for a shard count `rm` (the padded
portion of the per-iteration format, without the hyphen separator). -/
def suffixes (rm : Nat) : List String :=
  (List.range rm).map (fun i => padNum (padWidth rm) i)

/-! Queue-readiness poll, `create_job_queue.py` lines 23-38.  The
status oracle `statusAt i` is the status AWS reports on the (i+1)-th
`describe_job_queues` call; the source hard-codes the attempt bound 60
(line 33), embedded here as the parameter `bound`. -/

/-- Fuel-based worker for the polling loop.  State `c` is the value of
`num_waits` at the top of the loop body; one step performs the status
query, increments `num_waits`, aborts (`sys.exit`) when the new count
exceeds `bound`, returns success when the query said `VALID`, and loops
otherwise.  Returns the observed statuses in order and the success
flag. -/
def pollEvWork (statusAt : Nat → String) (bound : Nat) :
    Nat → Nat → List String × Bool
  | _, 0 => ([], false)
  | c, fuel + 1 =>
    let s := statusAt c
    if bound < c + 1 then ([s], false)
    else if s = "VALID" then ([s], true)
    else
      let r := pollEvWork statusAt bound (c + 1) fuel
      (s :: r.1, r.2)

/-- The polling loop of `create_job_queue` (lines 24-34): statuses
observed, and whether the loop ended in success (rather than
`sys.exit`). -/
def pollEv (statusAt : Nat → String) (bound : Nat) : List String × Bool :=
  pollEvWork statusAt bound 0 (bound + 1)

/-- Number of status queries performed and the outcome of the wait in
`create_job_queue`. -/
def create_job_queue_poll (statusAt : Nat → String) (bound : Nat) :
    Nat × Bool :=
  ((pollEv statusAt bound).1.length, (pollEv statusAt bound).2)

/-! Event-level model of the tail of `main` (`submit_batch_job.py`
lines 137-160): queue creation with its poll, then the env-var stage,
then the fan-out loop. -/

/-- Observable remote calls of the orchestrator tail: a queue status
query (with the status it returned) or a job submission. -/
inductive Ev where
  | check (status : String)
  | submit (jobName : String) (commands : List String)
      (env : List (String × String))
deriving DecidableEq

/-- Whether an event is a job submission. -/
def isSubmitEv : Ev → Bool
  | Ev.submit _ _ _ => true
  | _ => false

/-- Number of job submissions in an event trace. -/
def countSubmits (tr : List Ev) : Nat := (tr.filter isSubmitEv).length

/-- Environment mappings carried by the submissions of a trace, in
submission order. -/
def submittedEnvs (tr : List Ev) : List (List (String × String)) :=
  tr.filterMap (fun e => match e with
    | Ev.submit _ _ env => some env
    | _ => none)

/-- Remote-call trace of `main` from queue creation onward
(lines 137-160): the poll's status checks; if the poll aborted
(`sys.exit`) nothing else happens; otherwise the env-var stage runs and,
if its assertion fails, the process aborts before any submission;
otherwise the ten fan-out submissions follow, each carrying the shared
environment mapping. -/
def mainTrace (statusAt : Nat → String) (bound : Nat)
    (tokens : List String) (base : String) : List Ev :=
  let p := pollEv statusAt bound
  let checks := p.1.map Ev.check
  if p.2 = false then checks
  else
    match build_env_vars tokens with
    | Except.error _ => checks
    | Except.ok env =>
      checks ++ (submitLoop base range_max).map
        (fun pr => Ev.submit pr.1 pr.2 env)

/-! Role provisioning, `iam_role.py` lines 7-46.  The IAM control plane
is external to the repository; it is modelled as explicit state with
the provider semantics the spec assigns to it (create fails with
`EntityAlreadyExistsException` when the role name is taken; `get_role`
is lookup; `attach_role_policy` of an already-attached policy is a
no-op; `list_policies` returns a fixed catalogue). -/

/-- Modelled from the spec: state of the external IAM provider —
existing roles (name, arn), the set of (role, policy-arn) attachments,
the catalogue `list_policies` returns, and a counter for fresh arns. -/
structure IAMState where
  roles : List (String × String)
  attached : List (String × String)
  policies : List (String × String)
  nextId : Nat
deriving DecidableEq

/-- Provider-assigned arn for the `n`-th created role. -/
def mkRoleArn (n : Nat) : String := "arn:aws:iam:role/" ++ pyStr n

/-- Modelled from the spec: `iam.create_role` — fails with
`EntityAlreadyExistsException` when a role of that name exists,
otherwise records the role under a fresh arn. -/
def iam_create_role (s : IAMState) (name : String) :
    Except Unit (IAMState × String) :=
  match s.roles.lookup name with
  | some _ => Except.error ()
  | none =>
    let arn := mkRoleArn s.nextId
    Except.ok
      ({ s with roles := (name, arn) :: s.roles, nextId := s.nextId + 1 },
        arn)

/-- Modelled from the spec: `iam.get_role` — lookup by name. -/
def iam_get_role (s : IAMState) (name : String) : Option String :=
  s.roles.lookup name

/-- Modelled from the spec: `iam.attach_role_policy` — attaching an
already-attached policy is a no-op, not an error. -/
def iam_attach_role_policy (s : IAMState) (roleName policyArn : String) :
    IAMState :=
  if (roleName, policyArn) ∈ s.attached then s
  else { s with attached := (roleName, policyArn) :: s.attached }

/-- Policy-arn resolution of `iam_role.py` lines 38-39: first element
of the catalogue whose name matches (`none` models the `IndexError`
raised by `[0]` on an empty filter result). -/
def resolve_policy_arn (pols : List (String × String)) (name : String) :
    Option String :=
  ((pols.filter (fun p => p.1 = name)).head?).map (fun p => p.2)

/-- Attachment loop of `iam_role.py` lines 37-44, resolving each policy
name against the catalogue fetched once before the loop. -/
def attach_policies (pols : List (String × String)) (s : IAMState)
    (roleName : String) : List String → Except String IAMState
  | [] => Except.ok s
  | p :: rest =>
    match resolve_policy_arn pols p with
    | none => Except.error "IndexError"
    | some arn =>
      attach_policies pols (iam_attach_role_policy s roleName arn)
        roleName rest

/-- Get-or-create step of `create_role_attach_policy` (`iam_role.py`
lines 23-34): try `create_role`; on `EntityAlreadyExistsException` fall
back to `get_role`.  `none` models the `NoSuchEntityException`
`get_role` would raise if the role were absent in both steps. -/
def ensure_role (s : IAMState) (name : String) :
    Option (IAMState × String) :=
  match iam_create_role s name with
  | Except.ok r => some r
  | Except.error _ => (iam_get_role s name).map (fun arn => (s, arn))

/-- Embedding of `create_role_attach_policy` (`iam_role.py`
lines 7-46): the get-or-create step, then fetch the policy catalogue
and attach every named policy; return the final provider state with
the role name and arn.  The role-description argument only decorates
the remote role and is not modelled. -/
def create_role_attach_policy (s : IAMState) (role_name : String)
    (policy_names : List String) :
    Except String (IAMState × String × String) :=
  match ensure_role s role_name with
  | none => Except.error "NoSuchEntity"
  | some (s1, role_arn) =>
    match attach_policies s1.policies s1 role_name policy_names with
    | Except.error e => Except.error e
    | Except.ok s2 => Except.ok (s2, role_name, role_arn)

/-! Image build and push, `build_push_repo.py` lines 10-65.  The local
filesystem is an association list path to content (later entries
shadowed by earlier ones); the ECR login and repository get-or-create
preamble is abstracted into the given `uri`; the Docker daemon is an
oracle `buildOk` saying whether the build of a given tag raises. -/

/-- Docker-side remote calls of `build_and_push`, in order. -/
inductive DockerEv where
  | build (taggedName : String)
  | tagImage (uri tag : String)
  | push (uri tag : String)
deriving DecidableEq

/-- Outcome of a `build_and_push` call. -/
inductive BPOutcome where
  | ok
  | buildFailure
  | fileError (msg : String)
deriving DecidableEq

/-- Model of `os.path.isfile`. -/
def isfile (fs : List (String × String)) (p : String) : Bool :=
  (fs.lookup p).isSome

/-- Model of `shutil.copyfile`: fails when the source is missing,
otherwise writes the source's content at the destination. -/
def copyfile (fs : List (String × String)) (src dst : String) :
    Except String (List (String × String)) :=
  match fs.lookup src with
  | none => Except.error "FileNotFoundError"
  | some c => Except.ok ((dst, c) :: fs)

/-- Model of `os.remove`: fails when the path is missing, otherwise
deletes every entry at that path. -/
def removeFile (fs : List (String × String)) (p : String) :
    Except String (List (String × String)) :=
  if isfile fs p then Except.ok (fs.filter (fun e => e.1 ≠ p))
  else Except.error "FileNotFoundError"

/-- Per-tag Docker loop of `build_push_repo.py` lines 45-59: for each
tag, build the image (aborting the whole call if the build raises),
then tag it and push it.  Returns the Docker events in order and
whether the loop completed. -/
def docker_loop (rname uri : String) (buildOk : String → Bool) :
    List String → List DockerEv × Bool
  | [] => ([], true)
  | t :: rest =>
    let ev := DockerEv.build (rname ++ ":" ++ t)
    if buildOk t = false then ([ev], false)
    else
      let r := docker_loop rname uri buildOk rest
      (ev :: DockerEv.tagImage uri t :: DockerEv.push uri t :: r.1, r.2)

/-- Embedding of `build_and_push` (`build_push_repo.py` lines 10-65)
from the requirements-copy step onward: copy the dependency manifest
into the build context only when `reqpath` is given and no
`requirements.txt` is present there (line 37); run the per-tag
build/tag/push loop over the tags (default `latest` when the list is
empty, lines 42-43); afterwards remove the copy only when `reqpath` is
given and no `requirements.txt` is present (line 62 — the guard of the
removal is the same negative test as the copy's).  A Docker exception
propagates immediately, skipping the removal step.  Returns the final
filesystem, the Docker events, and the outcome. -/
def build_and_push (fs : List (String × String)) (rname uri : String)
    (buildpath : String) (reqpath : Option String) (tags : List String)
    (buildOk : String → Bool) :
    List (String × String) × List DockerEv × BPOutcome :=
  let p := buildpath ++ "/requirements.txt"
  let step1 : Except String (List (String × String)) :=
    match reqpath with
    | some r => if isfile fs p = false then copyfile fs r p else Except.ok fs
    | none => Except.ok fs
  match step1 with
  | Except.error e => (fs, [], BPOutcome.fileError e)
  | Except.ok fs1 =>
    let eff := if tags = [] then ["latest"] else tags
    let d := docker_loop rname uri buildOk eff
    if d.2 = false then (fs1, d.1, BPOutcome.buildFailure)
    else
      match reqpath with
      | none => (fs1, d.1, BPOutcome.ok)
      | some _ =>
        if isfile fs1 p = false then
          match removeFile fs1 p with
          | Except.error e => (fs1, d.1, BPOutcome.fileError e)
          | Except.ok fs2 => (fs2, d.1, BPOutcome.ok)
        else (fs1, d.1, BPOutcome.ok)

/-- Number of Docker image builds in an event list. -/
def numBuilds (evs : List DockerEv) : Nat :=
  (evs.filter (fun e => match e with
    | DockerEv.build _ => true
    | _ => false)).length

/-- Tags pushed, in push order. -/
def pushedTags (evs : List DockerEv) : List String :=
  evs.filterMap (fun e => match e with
    | DockerEv.push _ t => some t
    | _ => none)

/-! Helper lemmas: decimal digits and the integer logarithm. -/

/-- Fuel irrelevance for the digit worker. -/
theorem natDigitsAux_congr :
    ∀ f fq n, n < f → n < fq → natDigitsAux f n = natDigitsAux fq n := by
  intro f
  induction f with
  | zero => intro fq n h; omega
  | succ f ih =>
    intro fq n hf hq
    cases fq with
    | zero => omega
    | succ fq =>
      simp only [natDigitsAux]
      by_cases h10 : n < 10
      · simp [h10]
      · have hdiv : n / 10 < n := Nat.div_lt_self (by omega) (by omega)
        simp only [h10, if_false]
        rw [ih fq (n / 10) (by omega) (by omega)]

/-- Recurrence, small case. -/
theorem natDigits_lt {n : Nat} (h : n < 10) : natDigits n = [digitChar n] := by
  simp [natDigits, natDigitsAux, h]

/-- Recurrence, large case. -/
theorem natDigits_ge {n : Nat} (h : 10 ≤ n) :
    natDigits n = natDigits (n / 10) ++ [digitChar (n % 10)] := by
  have hdiv : n / 10 < n := Nat.div_lt_self (by omega) (by omega)
  show natDigitsAux (n + 1) n = _
  conv_lhs => rw [natDigitsAux]
  rw [if_neg (by omega)]
  rw [natDigitsAux_congr n (n / 10 + 1) (n / 10) (by omega) (by omega)]
  rfl

/-- Fuel irrelevance for the logarithm worker. -/
theorem log10fAux_congr :
    ∀ f fq n, n < f → n < fq → log10fAux f n = log10fAux fq n := by
  intro f
  induction f with
  | zero => intro fq n h; omega
  | succ f ih =>
    intro fq n hf hq
    cases fq with
    | zero => omega
    | succ fq =>
      simp only [log10fAux]
      by_cases h10 : n < 10
      · simp [h10]
      · have hdiv : n / 10 < n := Nat.div_lt_self (by omega) (by omega)
        simp only [h10, if_false]
        rw [ih fq (n / 10) (by omega) (by omega)]

/-- Recurrence, small case. -/
theorem log10f_lt {n : Nat} (h : n < 10) : log10f n = 0 := by
  simp [log10f, log10fAux, h]

/-- Recurrence, large case. -/
theorem log10f_ge {n : Nat} (h : 10 ≤ n) : log10f n = log10f (n / 10) + 1 := by
  have hdiv : n / 10 < n := Nat.div_lt_self (by omega) (by omega)
  show log10fAux (n + 1) n = _
  conv_lhs => rw [log10fAux]
  rw [if_neg (by omega)]
  rw [log10fAux_congr n (n / 10 + 1) (n / 10) (by omega) (by omega)]
  rfl

/-- The embedded integer logarithm agrees with `Nat.log 10` on positive
arguments. -/
theorem log10f_eq_log {n : Nat} (h : 1 ≤ n) : log10f n = Nat.log 10 n := by
  induction n using Nat.strong_induction_on with
  | _ n ih =>
    by_cases h10 : n < 10
    · rw [log10f_lt h10]
      exact (Nat.log_eq_zero_iff.mpr (Or.inl h10)).symm
    · push_neg at h10
      have hdiv : n / 10 < n := Nat.div_lt_self (by omega) (by omega)
      have hdp : 1 ≤ n / 10 := Nat.div_pos h10 (by omega)
      have hlogpos : 0 < Nat.log 10 n := Nat.log_pos (by omega) h10
      rw [log10f_ge h10, ih (n / 10) hdiv hdp, Nat.log_div_base]
      omega

/-- Number of decimal digits. -/
theorem natDigits_length (n : Nat) : (natDigits n).length = log10f n + 1 := by
  induction n using Nat.strong_induction_on with
  | _ n ih =>
    by_cases h10 : n < 10
    · rw [natDigits_lt h10, log10f_lt h10]; rfl
    · push_neg at h10
      have hdiv : n / 10 < n := Nat.div_lt_self (by omega) (by omega)
      rw [natDigits_ge h10, log10f_ge h10]
      simp [ih (n / 10) hdiv]

/-- Length of the zero-padded format when the width suffices. -/
theorem padNum_length {w n : Nat} (h : (natDigits n).length ≤ w) :
    (padNum w n).length = w := by
  simp only [padNum, String.length]
  simp [List.length_append, List.length_replicate]
  omega

/-- Every index below the shard count fits in the derived pad width. -/
theorem digits_le_padWidth {i rm : Nat} (h1 : 1 ≤ rm) (h2 : i < rm) :
    (natDigits i).length ≤ padWidth rm := by
  rw [natDigits_length, padWidth]
  by_cases hz : i = 0
  · subst hz; rw [log10f_lt (by omega)]; omega
  · rw [log10f_eq_log (by omega), log10f_eq_log h1]
    have hmono : Nat.log 10 i ≤ Nat.log 10 rm :=
      Nat.log_mono_right (Nat.le_of_lt h2)
    omega

/-! Helper lemmas: the queue-readiness polling loop. -/

/-- When no query ever reports `VALID`, the worker performs exactly one
status check per unit of fuel and ends in abort. -/
theorem pollEvWork_never (statusAt : Nat → String) (bound : Nat)
    (h : ∀ i, statusAt i ≠ "VALID") :
    ∀ fuel c, c + fuel = bound + 1 →
      (pollEvWork statusAt bound c fuel).1.length = fuel ∧
        (pollEvWork statusAt bound c fuel).2 = false := by
  intro fuel
  induction fuel with
  | zero => intro c hc; exact ⟨rfl, rfl⟩
  | succ f ih =>
    intro c hc
    simp only [pollEvWork]
    by_cases hb : bound < c + 1
    · have hf : f = 0 := by omega
      subst hf
      simp [hb]
    · have hs : statusAt c ≠ "VALID" := h c
      simp only [hb, if_false, hs, ite_false]
      have hr := ih (c + 1) (by omega)
      simp [hr.1, hr.2]

/-- When the first `VALID` answer arrives at query index `k` (0-based)
with `k + 1 ≤ bound`, the worker stops successfully after the
`(k + 1)`-th check. -/
theorem pollEvWork_valid (statusAt : Nat → String) (bound k : Nat)
    (hk : k + 1 ≤ bound) (hv : statusAt k = "VALID")
    (hbefore : ∀ i, i < k → statusAt i ≠ "VALID") :
    ∀ fuel c, c + fuel = bound + 1 → c ≤ k →
      (pollEvWork statusAt bound c fuel).1.length = k + 1 - c ∧
        (pollEvWork statusAt bound c fuel).2 = true := by
  intro fuel
  induction fuel with
  | zero => intro c hc hck; omega
  | succ f ih =>
    intro c hc hck
    simp only [pollEvWork]
    have hb : ¬ bound < c + 1 := by omega
    by_cases hek : c = k
    · subst hek
      simp [hb, hv]
    · have hs : statusAt c ≠ "VALID" := hbefore c (by omega)
      simp only [hb, if_false, hs, ite_false]
      have hr := ih (c + 1) (by omega) (by omega)
      constructor
      · simp [hr.1]; omega
      · simp [hr.2]

/-- A successful poll observed a `VALID` status. -/
theorem pollEvWork_mem_valid (statusAt : Nat → String) (bound : Nat) :
    ∀ fuel c, (pollEvWork statusAt bound c fuel).2 = true →
      "VALID" ∈ (pollEvWork statusAt bound c fuel).1 := by
  intro fuel
  induction fuel with
  | zero => intro c h; simp [pollEvWork] at h
  | succ f ih =>
    intro c h
    simp only [pollEvWork] at h ⊢
    by_cases hb : bound < c + 1
    · simp [hb] at h
    · by_cases hs : statusAt c = "VALID"
      · simp [hb, hs]
      · simp only [hb, if_false, hs, ite_false] at h ⊢
        exact List.mem_cons_of_mem _ (ih (c + 1) h)

/-- Claim C2, counterexample to the claim as stated: with attempt bound
3 and a queue that never becomes `VALID`, the wait of
`create_job_queue` performs 4 status checks before aborting, not 3. -/
theorem c2_cex :
    (create_job_queue_poll (fun _ => "CREATING") 3).1 = 4 ∧
      ¬ (create_job_queue_poll (fun _ => "CREATING") 3).1 = 3 := by
  decide

/-- Claim C2 (amended): the wait of `create_job_queue` (attempt bound
generalizing the hard-coded 60 of line 33) returns success the moment a
query among the first `bound` reports `VALID`, after exactly the checks
up to and including that query; if no query among the first `bound`
reports `VALID` first, it aborts the pipeline after exactly `bound + 1`
status checks. -/
theorem c2_poll_bound (statusAt : Nat → String) (bound : Nat) :
    ((∀ i, statusAt i ≠ "VALID") →
      create_job_queue_poll statusAt bound = (bound + 1, false)) ∧
    (∀ k, k + 1 ≤ bound → statusAt k = "VALID" →
      (∀ i, i < k → statusAt i ≠ "VALID") →
      create_job_queue_poll statusAt bound = (k + 1, true)) := by
  constructor
  · intro h
    have hr := pollEvWork_never statusAt bound h (bound + 1) 0 (by omega)
    simp only [create_job_queue_poll, pollEv, Prod.ext_iff]
    exact ⟨hr.1, hr.2⟩
  · intro k hk hv hbefore
    have hr := pollEvWork_valid statusAt bound k hk hv hbefore
      (bound + 1) 0 (by omega) (by omega)
    simp only [create_job_queue_poll, pollEv, Prod.ext_iff]
    refine ⟨?_, hr.2⟩
    rw [hr.1]
    omega

/-- Witness for C2: both branches at concrete inputs — a never-valid
queue with bound 3 aborts after 4 checks; an immediately-valid queue
succeeds after 1 check. -/
theorem c2_poll_bound_witness :
    create_job_queue_poll (fun _ => "CREATING") 3 = (3 + 1, false) ∧
      create_job_queue_poll (fun _ => "VALID") 3 = (0 + 1, true) := by
  constructor
  · exact (c2_poll_bound (fun _ => "CREATING") 3).1 (fun i => by decide)
  · exact (c2_poll_bound (fun _ => "VALID") 3).2 0 (by omega) rfl
      (fun i hi => by omega)

/-! Helper lemmas: the fan-out submission loop and the main trace. -/

/-- Each loop iteration appends exactly one submission record. -/
theorem submitFold_snd_length (rm : Nat) :
    ∀ (idcs : List Nat) (nm : String) (acc : List (String × List String)),
      ((idcs.foldl (submitStep rm) (nm, acc)).2).length =
        acc.length + idcs.length := by
  intro idcs
  induction idcs with
  | nil => intro nm acc; simp
  | cons i rest ih =>
    intro nm acc
    simp only [List.foldl_cons, submitStep]
    rw [ih]
    simp
    omega

/-- The fan-out loop performs exactly `rm` submissions. -/
theorem submitLoop_length (base : String) (rm : Nat) :
    (submitLoop base rm).length = rm := by
  simp [submitLoop, submitFold_snd_length]

/-- Submission counting distributes over trace concatenation. -/
theorem countSubmits_append (a b : List Ev) :
    countSubmits (a ++ b) = countSubmits a + countSubmits b := by
  simp [countSubmits, List.filter_append]

/-- Environment extraction distributes over trace concatenation. -/
theorem submittedEnvs_append (a b : List Ev) :
    submittedEnvs (a ++ b) = submittedEnvs a ++ submittedEnvs b := by
  simp [submittedEnvs, List.filterMap_append]

/-- Status checks contribute no submissions to a trace. -/
theorem countSubmits_checks (ss : List String) :
    countSubmits (ss.map Ev.check) = 0 := by
  induction ss with
  | nil => rfl
  | cons s rest _ => simp [countSubmits, isSubmitEv]

/-- A mapped submission list contributes one submission per element. -/
theorem countSubmits_submits (l : List (String × List String))
    (env : List (String × String)) :
    countSubmits (l.map (fun pr => Ev.submit pr.1 pr.2 env)) = l.length := by
  induction l with
  | nil => rfl
  | cons x rest ih => simpa [countSubmits, isSubmitEv] using ih

/-- Status checks carry no environment mappings. -/
theorem submittedEnvs_checks (ss : List String) :
    submittedEnvs (ss.map Ev.check) = [] := by
  induction ss with
  | nil => rfl
  | cons s rest _ => simp [submittedEnvs]

/-- Every mapped submission carries the shared environment mapping. -/
theorem submittedEnvs_submits (l : List (String × List String))
    (env : List (String × String)) :
    submittedEnvs (l.map (fun pr => Ev.submit pr.1 pr.2 env)) =
      List.replicate l.length env := by
  induction l with
  | nil => rfl
  | cons x rest ih => simpa [submittedEnvs, List.replicate] using ih

/-- An even-length token list (including the empty one) is paired. -/
theorem build_env_vars_even {tokens : List String}
    (h : tokens.length % 2 = 0) :
    build_env_vars tokens = Except.ok (pairs tokens) := by
  by_cases hnil : tokens = []
  · subst hnil; rfl
  · simp [build_env_vars, hnil, h]

/-- An odd-length token list is rejected. -/
theorem build_env_vars_odd {tokens : List String}
    (h : tokens.length % 2 = 1) :
    build_env_vars tokens =
      Except.error
        "number of entries on environment variable list should be even" := by
  have hnil : tokens ≠ [] := by
    intro hx; subst hx; simp at h
  simp [build_env_vars, hnil]
  omega

/-- Claim C1, evaluation of the code at the claim's input: the fan-out
loop mutates the job-name variable, so with base `run-x` and count 3
the submitted names accumulate (`run-x-0`, `run-x-0-1`, `run-x-0-1-2`)
instead of the fresh names `run-x0`, `run-x1`, `run-x2` the spec
states; with the hard-coded count 10 of the shipped composition the
first two names are `run-x-00` and `run-x-00-01`. -/
theorem c1_code_eval :
    jobNames "run-x" 3 = ["run-x-0", "run-x-0-1", "run-x-0-1-2"] ∧
      ¬ jobNames "run-x" 3 = ["run-x0", "run-x1", "run-x2"] ∧
      (jobNames "run-x" range_max).take 2 = ["run-x-00", "run-x-00-01"] := by
  decide

/-- Claim C4: a token sequence of odd length aborts the fan-out stage
before any submission (the trace holds zero submissions), while an
even-length sequence is paired into name/value mappings and, when the
queue poll succeeded, every one of the `range_max` submissions proceeds
with that shared mapping. -/
theorem c4_env_guard (statusAt : Nat → String) (bound : Nat)
    (tokens : List String) (base : String) :
    (tokens.length % 2 = 1 →
      countSubmits (mainTrace statusAt bound tokens base) = 0) ∧
    (tokens.length % 2 = 0 → (pollEv statusAt bound).2 = true →
      countSubmits (mainTrace statusAt bound tokens base) = range_max ∧
      submittedEnvs (mainTrace statusAt bound tokens base) =
        List.replicate range_max (pairs tokens)) := by
  constructor
  · intro hodd
    simp only [mainTrace, build_env_vars_odd hodd]
    by_cases hp : (pollEv statusAt bound).2 = false
    · simp [hp, countSubmits_checks]
    · simp [hp, countSubmits_checks]
  · intro heven hpoll
    have hp : ¬ (pollEv statusAt bound).2 = false := by simp [hpoll]
    have hif : (true = false) = False := by simp
    simp only [mainTrace, build_env_vars_even heven, hpoll, hif, if_false]
    constructor
    · rw [countSubmits_append, countSubmits_checks,
        countSubmits_submits, submitLoop_length]
      omega
    · rw [submittedEnvs_append, submittedEnvs_checks,
        submittedEnvs_submits, submitLoop_length, List.nil_append]

/-- Witness for C4: the odd token list of the spec's example yields zero
submissions, the even extension yields the full fan-out of 10. -/
theorem c4_env_guard_witness :
    countSubmits
        (mainTrace (fun _ => "VALID") 60 ["A", "1", "B"] "base") = 0 ∧
      countSubmits
        (mainTrace (fun _ => "VALID") 60 ["A", "1", "B", "2"] "base") =
          range_max := by
  constructor
  · exact (c4_env_guard (fun _ => "VALID") 60 ["A", "1", "B"] "base").1
      (by decide)
  · exact ((c4_env_guard (fun _ => "VALID") 60 ["A", "1", "B", "2"]
      "base").2 (by decide) (by decide)).1

/-- Claim C7: the zero-padded index suffix width equals
`floor(log10(count)) + 1` — in general every index below the count pads
to exactly that width, and concretely count 10 yields the width-2
suffixes `00`..`09`, count 1 yields the single width-1 suffix `0`, and
all 100 suffixes of count 100 have width 3. -/
theorem c7_padding :
    (∀ rm, 1 ≤ rm → padWidth rm = Nat.log 10 rm + 1 ∧
      ∀ i, i < rm → (padNum (padWidth rm) i).length = Nat.log 10 rm + 1) ∧
    suffixes 10 = ["00", "01", "02", "03", "04", "05", "06", "07", "08",
      "09"] ∧
    suffixes 1 = ["0"] ∧
    (∀ s ∈ suffixes 100, s.length = 3) := by
  refine ⟨?_, by decide, by decide, by decide⟩
  intro rm h1
  have hw : padWidth rm = Nat.log 10 rm + 1 := by
    rw [padWidth, log10f_eq_log h1]
  refine ⟨hw, fun i hi => ?_⟩
  rw [padNum_length (digits_le_padWidth h1 hi), hw]

/-- Witness for C7: the general width statement applied at count 5 and
index 3. -/
theorem c7_padding_witness :
    padWidth 5 = Nat.log 10 5 + 1 ∧
      (padNum (padWidth 5) 3).length = Nat.log 10 5 + 1 := by
  exact ⟨(c7_padding.1 5 (by omega)).1, (c7_padding.1 5 (by omega)).2 3
    (by omega)⟩

/-! Helper lemmas for the temporal claim: submissions appear only after
a `VALID` status check. -/

/-- A trace made of status checks contains no submission. -/
theorem no_submit_in_checks (ss : List String) (k : Nat) (name : String)
    (cmds : List String) (env : List (String × String)) :
    ¬ (ss.map Ev.check)[k]? = some (Ev.submit name cmds env) := by
  intro h
  rw [List.getElem?_map] at h
  cases hx : ss[k]? with
  | none => rw [hx] at h; exact Option.noConfusion h
  | some s =>
    rw [hx] at h
    simp at h

/-- In a trace of checks followed by anything, a submission at position
`k` is preceded by a `VALID` check whenever `VALID` was observed. -/
theorem submit_after_valid (ss : List String) (subs : List Ev)
    (hval : "VALID" ∈ ss) (k : Nat) (name : String)
    (cmds : List String) (env : List (String × String))
    (hsub : (ss.map Ev.check ++ subs)[k]? =
      some (Ev.submit name cmds env)) :
    ∃ j : Nat, j < k ∧
      (ss.map Ev.check ++ subs)[j]? = some (Ev.check "VALID") := by
  obtain ⟨j, hj, hjv⟩ := List.mem_iff_getElem.mp hval
  have hL : j < (ss.map Ev.check).length := by simpa using hj
  have hcheck : (ss.map Ev.check ++ subs)[j]? =
      some (Ev.check "VALID") := by
    rw [List.getElem?_append]
    rw [if_pos hL, List.getElem?_map, List.getElem?_eq_getElem hj, hjv]
    rfl
  have hk_ge : (ss.map Ev.check).length ≤ k := by
    by_contra hlt
    push_neg at hlt
    have hkk : (ss.map Ev.check ++ subs)[k]? = (ss.map Ev.check)[k]? := by
      rw [List.getElem?_append, if_pos hlt]
    rw [hkk] at hsub
    exact no_submit_in_checks ss k name cmds env hsub
  exact ⟨j, by omega, hcheck⟩

/-- Claim C9: in every run of the orchestrator tail, a job submission
event occurs only strictly after a status query that reported `VALID`
— submissions are reached only when the queue-creation poll returned,
and it returns only on a `VALID` observation. -/
theorem c9_valid_before_submit (statusAt : Nat → String) (bound : Nat)
    (tokens : List String) (base : String) (k : Nat)
    (name : String) (cmds : List String) (env : List (String × String))
    (hsub : (mainTrace statusAt bound tokens base)[k]? =
      some (Ev.submit name cmds env)) :
    ∃ j : Nat, j < k ∧
      (mainTrace statusAt bound tokens base)[j]? =
        some (Ev.check "VALID") := by
  by_cases hpoll : (pollEv statusAt bound).2 = false
  · have htr : mainTrace statusAt bound tokens base =
        (pollEv statusAt bound).1.map Ev.check := by
      simp [mainTrace, hpoll]
    rw [htr] at hsub
    exact absurd hsub (no_submit_in_checks _ k _ _ _)
  · rw [Bool.not_eq_false] at hpoll
    have hif : (true = false) = False := by simp
    have hmem : "VALID" ∈ (pollEv statusAt bound).1 :=
      pollEvWork_mem_valid statusAt bound (bound + 1) 0 hpoll
    cases henv : build_env_vars tokens with
    | error e =>
      have htr : mainTrace statusAt bound tokens base =
          (pollEv statusAt bound).1.map Ev.check := by
        simp [mainTrace, hpoll, hif, henv]
      rw [htr] at hsub
      exact absurd hsub (no_submit_in_checks _ k _ _ _)
    | ok env2 =>
      have htr : mainTrace statusAt bound tokens base =
          (pollEv statusAt bound).1.map Ev.check ++
            (submitLoop base range_max).map
              (fun pr => Ev.submit pr.1 pr.2 env2) := by
        simp [mainTrace, hpoll, hif, henv]
      rw [htr] at hsub ⊢
      exact submit_after_valid _ _ hmem k name cmds env hsub

/-- Witness for C9: in the run with an immediately-valid queue and no
environment tokens, the submission at trace position 1 is preceded by
the `VALID` check, which sits at position 0. -/
theorem c9_valid_before_submit_witness :
    (mainTrace (fun _ => "VALID") 60 [] "b")[0]? =
      some (Ev.check "VALID") := by
  obtain ⟨j, hj1, hj2⟩ := c9_valid_before_submit (fun _ => "VALID") 60 []
    "b" 1 "b-00" ["--index", "0"] [] (by decide)
  have hj0 : j = 0 := by omega
  rw [hj0] at hj2
  exact hj2

/-! Helper lemmas for the naming invariant. -/

/-- Every name of a run whose timestamp string is unchanged by
lower-casing ends in that timestamp string. -/
theorem run_names_suffix (nbs ts : String) (hts : pyLower ts = ts) :
    ∀ n ∈ run_names nbs ts, ∃ p : List Char, n.data = p ++ ts.data := by
  have hdata : ts.data.map lowerChar = ts.data := congrArg String.data hts
  intro n hn
  simp only [run_names, List.mem_cons, List.mem_singleton,
    List.not_mem_nil, or_false] at hn
  rcases hn with h | h | h | h | h <;> subst h
  · refine ⟨("awsbatch/".data.map lowerChar ++ nbs.data.map lowerChar
      ++ "-repo-".data.map lowerChar), ?_⟩
    simp [repo_name, pyLower, String.data_append, List.map_append, hdata]
  · exact ⟨nbs.data ++ "-batch-job-role-".data,
      by simp [job_role_name, String.data_append]⟩
  · exact ⟨nbs.data ++ "-batch-job-def-".data,
      by simp [job_def_name, String.data_append]⟩
  · exact ⟨nbs.data ++ "-batch-job-queue-".data,
      by simp [job_queue_name, String.data_append]⟩
  · exact ⟨nbs.data ++ "-batch-job-".data,
      by simp [job_name_base, String.data_append]⟩

/-- Claim C8, counterexample to the claim as stated: two distinct run
instants within the same wall-clock second (differing only in
microseconds) produce the same timestamp suffix and hence identical
resource names — concurrent runs can collide. -/
theorem c8_cex :
    (⟨2026, 10, 12, 9, 30, 45, 1⟩ : PyInstant) ≠
        ⟨2026, 10, 12, 9, 30, 45, 999999⟩ ∧
      time_stamp ⟨2026, 10, 12, 9, 30, 45, 1⟩ =
        time_stamp ⟨2026, 10, 12, 9, 30, 45, 999999⟩ ∧
      repo_name "pyAFQ-aws" (time_stamp ⟨2026, 10, 12, 9, 30, 45, 1⟩) =
        repo_name "pyAFQ-aws"
          (time_stamp ⟨2026, 10, 12, 9, 30, 45, 999999⟩) := by
  decide

/-- Claim C8 (amended): all five resource names of a run carry the
run's timestamp string as a common suffix, and two runs whose timestamp
strings differ (the strings are case-stable and of equal length, as the
fixed-width digit-and-hyphen format produces) generate entirely
disjoint name sets; runs falling in the same wall-clock second share
the timestamp and are not protected. -/
theorem c8_names (nbs1 nbs2 ts1 ts2 : String) (h1 : pyLower ts1 = ts1)
    (h2 : pyLower ts2 = ts2) (hlen : ts1.data.length = ts2.data.length) :
    (∀ n ∈ run_names nbs1 ts1, ∃ p : List Char, n.data = p ++ ts1.data) ∧
    (ts1 ≠ ts2 → ∀ n1 ∈ run_names nbs1 ts1, ∀ n2 ∈ run_names nbs2 ts2,
      n1 ≠ n2) := by
  refine ⟨run_names_suffix nbs1 ts1 h1, ?_⟩
  intro hne n1 hn1 n2 hn2 heq
  obtain ⟨p1, e1⟩ := run_names_suffix nbs1 ts1 h1 n1 hn1
  obtain ⟨p2, e2⟩ := run_names_suffix nbs2 ts2 h2 n2 hn2
  have hdata : n1.data = n2.data := congrArg String.data heq
  rw [e1, e2] at hdata
  exact hne (String.ext (List.append_inj' hdata hlen).2)

/-- Witness for C8: two runs one second apart have distinct repository
names. -/
theorem c8_names_witness :
    repo_name "pyAFQ-aws" (time_stamp ⟨2026, 10, 12, 9, 30, 45, 0⟩) ≠
      repo_name "pyAFQ-aws" (time_stamp ⟨2026, 10, 12, 9, 30, 46, 0⟩) := by
  exact (c8_names "pyAFQ-aws" "pyAFQ-aws"
      (time_stamp ⟨2026, 10, 12, 9, 30, 45, 0⟩)
      (time_stamp ⟨2026, 10, 12, 9, 30, 46, 0⟩)
      (by decide) (by decide) (by decide)).2 (by decide)
    _ (by simp [run_names]) _ (by simp [run_names])

/-! Helper lemmas for role idempotency. -/

/-- Attachment records its pair. -/
theorem attach_mem (s : IAMState) (rn pa : String) :
    (rn, pa) ∈ (iam_attach_role_policy s rn pa).attached := by
  by_cases h : (rn, pa) ∈ s.attached <;> simp [iam_attach_role_policy, h]

/-- Attachment preserves existing pairs. -/
theorem attach_mono (s : IAMState) (rn pa : String)
    (t : String × String) (ht : t ∈ s.attached) :
    t ∈ (iam_attach_role_policy s rn pa).attached := by
  by_cases h : (rn, pa) ∈ s.attached <;>
    simp [iam_attach_role_policy, h, ht]

/-- Attachment touches neither roles nor the policy catalogue. -/
theorem attach_frame (s : IAMState) (rn pa : String) :
    (iam_attach_role_policy s rn pa).roles = s.roles ∧
      (iam_attach_role_policy s rn pa).policies = s.policies := by
  by_cases h : (rn, pa) ∈ s.attached <;>
    simp [iam_attach_role_policy, h]

/-- A successful attachment loop preserves roles and catalogue, and
only grows the attachment set. -/
theorem attach_policies_frame :
    ∀ (ps : List String) (pols : List (String × String)) (s : IAMState)
      (rn : String) (sq : IAMState),
      attach_policies pols s rn ps = Except.ok sq →
      sq.roles = s.roles ∧ sq.policies = s.policies ∧
        ∀ t ∈ s.attached, t ∈ sq.attached := by
  intro ps
  induction ps with
  | nil =>
    intro pols s rn sq h
    simp only [attach_policies, Except.ok.injEq] at h
    subst h
    exact ⟨rfl, rfl, fun t ht => ht⟩
  | cons p rest ih =>
    intro pols s rn sq h
    simp only [attach_policies] at h
    cases hres : resolve_policy_arn pols p with
    | none => rw [hres] at h; exact Except.noConfusion h
    | some arn =>
      rw [hres] at h
      obtain ⟨h1, h2, h3⟩ := ih pols (iam_attach_role_policy s rn arn) rn
        sq h
      refine ⟨h1.trans (attach_frame s rn arn).1,
        h2.trans (attach_frame s rn arn).2, fun t ht => ?_⟩
      exact h3 t (attach_mono s rn arn t ht)

/-- Re-running a successful attachment loop from its own final state
changes nothing. -/
theorem attach_policies_absorb :
    ∀ (ps : List String) (pols : List (String × String)) (s : IAMState)
      (rn : String) (sq : IAMState),
      attach_policies pols s rn ps = Except.ok sq →
      attach_policies pols sq rn ps = Except.ok sq := by
  intro ps
  induction ps with
  | nil =>
    intro pols s rn sq h
    simp only [attach_policies, Except.ok.injEq] at h
    subst h
    rfl
  | cons p rest ih =>
    intro pols s rn sq h
    simp only [attach_policies] at h
    cases hres : resolve_policy_arn pols p with
    | none => rw [hres] at h; exact Except.noConfusion h
    | some arn =>
      rw [hres] at h
      have hmem : (rn, arn) ∈ sq.attached :=
        (attach_policies_frame rest pols (iam_attach_role_policy s rn arn)
          rn sq h).2.2 _ (attach_mem s rn arn)
      have hA : iam_attach_role_policy sq rn arn = sq := by
        simp [iam_attach_role_policy, hmem]
      simp only [attach_policies, hres, hA]
      exact ih pols (iam_attach_role_policy s rn arn) rn sq h

/-- A successful get-or-create leaves the catalogue unchanged and makes
the role name resolve to the returned arn. -/
theorem ensure_role_spec (s : IAMState) (n : String) (sq : IAMState)
    (arn : String) (h : ensure_role s n = some (sq, arn)) :
    sq.policies = s.policies ∧ sq.roles.lookup n = some arn := by
  simp only [ensure_role, iam_create_role, iam_get_role] at h
  cases hlk : s.roles.lookup n with
  | some a =>
    rw [hlk] at h
    simp at h
    obtain ⟨hsq, harn⟩ := h
    subst hsq; subst harn
    exact ⟨rfl, hlk⟩
  | none =>
    rw [hlk] at h
    simp at h
    obtain ⟨hsq, harn⟩ := h
    subst harn
    rw [← hsq]
    exact ⟨rfl, by simp [List.lookup]⟩

/-- When the role name already resolves, get-or-create returns the
stored arn and an unchanged state. -/
theorem ensure_role_exists (s : IAMState) (n arn : String)
    (h : s.roles.lookup n = some arn) :
    ensure_role s n = some (s, arn) := by
  simp [ensure_role, iam_create_role, iam_get_role, h]

/-- Claim C5: `create_role_attach_policy` is an idempotent
get-or-create — a second call with the same role name returns the same
arn from lookup (the `AlreadyExists` outcome is a fallback, not an
error), creates no new role and re-attaches nothing: the provider state
is returned exactly as the first call left it. -/
theorem c5_role_idempotent (s : IAMState) (n : String) (ps : List String)
    (s1 : IAMState) (rn arn : String)
    (h : create_role_attach_policy s n ps = Except.ok (s1, rn, arn)) :
    rn = n ∧
      create_role_attach_policy s1 n ps = Except.ok (s1, n, arn) := by
  unfold create_role_attach_policy at h
  cases her : ensure_role s n with
  | none => rw [her] at h; exact Except.noConfusion h
  | some pr =>
    obtain ⟨sA, arn0⟩ := pr
    rw [her] at h
    dsimp only at h
    cases hat : attach_policies sA.policies sA n ps with
    | error e => rw [hat] at h; simp at h
    | ok s2 =>
      rw [hat] at h
      simp only [Except.ok.injEq, Prod.mk.injEq] at h
      obtain ⟨hs2, hrn, harn⟩ := h
      subst hs2; subst harn
      obtain ⟨hframe1, hframe2, _⟩ :=
        attach_policies_frame ps sA.policies sA n s2 hat
      obtain ⟨hpols, hlook⟩ := ensure_role_spec s n sA arn0 her
      have hlk1 : s2.roles.lookup n = some arn0 := by
        rw [hframe1]; exact hlook
      have hat2 : attach_policies s2.policies s2 n ps = Except.ok s2 := by
        rw [hframe2]
        exact attach_policies_absorb ps sA.policies sA n s2 hat
      refine ⟨hrn.symm, ?_⟩
      unfold create_role_attach_policy
      simp only [ensure_role_exists s2 n arn0 hlk1, hat2]

/-- Witness for C5: a concrete first call from an empty provider state,
followed by the second call on its result. -/
theorem c5_role_idempotent_witness :
    create_role_attach_policy
        ⟨[], [], [("AmazonS3FullAccess", "arn:aws:iam:policy/s3full")], 0⟩
        "afqBatchJobRole" ["AmazonS3FullAccess"] =
      Except.ok
        (⟨[("afqBatchJobRole", "arn:aws:iam:role/0")],
          [("afqBatchJobRole", "arn:aws:iam:policy/s3full")],
          [("AmazonS3FullAccess", "arn:aws:iam:policy/s3full")], 1⟩,
          "afqBatchJobRole", "arn:aws:iam:role/0") ∧
      create_role_attach_policy
        ⟨[("afqBatchJobRole", "arn:aws:iam:role/0")],
          [("afqBatchJobRole", "arn:aws:iam:policy/s3full")],
          [("AmazonS3FullAccess", "arn:aws:iam:policy/s3full")], 1⟩
        "afqBatchJobRole" ["AmazonS3FullAccess"] =
      Except.ok
        (⟨[("afqBatchJobRole", "arn:aws:iam:role/0")],
          [("afqBatchJobRole", "arn:aws:iam:policy/s3full")],
          [("AmazonS3FullAccess", "arn:aws:iam:policy/s3full")], 1⟩,
          "afqBatchJobRole", "arn:aws:iam:role/0") := by
  constructor
  · rfl
  · exact (c5_role_idempotent
      ⟨[], [], [("AmazonS3FullAccess", "arn:aws:iam:policy/s3full")], 0⟩
      "afqBatchJobRole" ["AmazonS3FullAccess"]
      ⟨[("afqBatchJobRole", "arn:aws:iam:role/0")],
        [("afqBatchJobRole", "arn:aws:iam:policy/s3full")],
        [("AmazonS3FullAccess", "arn:aws:iam:policy/s3full")], 1⟩
      "afqBatchJobRole" "arn:aws:iam:role/0" (by rfl)).2

/-! Helper lemmas for the Docker build/push loop. -/

/-- With a Docker daemon that never fails, the per-tag loop completes,
performs one build per tag and pushes each tag once, in order. -/
theorem docker_loop_ok (rname uri : String) :
    ∀ tags : List String,
      (docker_loop rname uri (fun _ => true) tags).2 = true ∧
      numBuilds (docker_loop rname uri (fun _ => true) tags).1 =
        tags.length ∧
      pushedTags (docker_loop rname uri (fun _ => true) tags).1 = tags := by
  intro tags
  induction tags with
  | nil => exact ⟨rfl, rfl, rfl⟩
  | cons t rest ih =>
    refine ⟨?_, ?_, ?_⟩
    · simp [docker_loop, ih.1]
    · simp [docker_loop, numBuilds] at ih ⊢
      exact ih.2.1
    · simp [docker_loop, pushedTags] at ih ⊢
      exact ih.2.2

/-- Claim C6, counterexample to the claim as stated: with two tags the
code performs two image builds in one invocation (the build happens
inside the per-tag loop), not one. -/
theorem c6_cex :
    numBuilds (build_and_push [] "repo" "uri" "/ctx" none ["a", "b"]
        (fun _ => true)).2.1 = 2 ∧
      ¬ numBuilds (build_and_push [] "repo" "uri" "/ctx" none ["a", "b"]
        (fun _ => true)).2.1 = 1 := by
  exact ⟨rfl, by decide⟩

/-- Claim C6 (amended): for a tag list of length k, `build_and_push`
performs one image build per tag (k builds, or a single build for the
empty list, which behaves as `latest`) and pushes the image once under
every tag, in order. -/
theorem c6_build_per_tag (fs : List (String × String))
    (rname uri bp : String) (tags : List String) :
    numBuilds (build_and_push fs rname uri bp none tags
        (fun _ => true)).2.1 = (if tags = [] then 1 else tags.length) ∧
    pushedTags (build_and_push fs rname uri bp none tags
        (fun _ => true)).2.1 = (if tags = [] then ["latest"] else tags) ∧
    (build_and_push fs rname uri bp none tags (fun _ => true)).2.2 =
      BPOutcome.ok := by
  by_cases htags : tags = []
  · subst htags
    exact ⟨rfl, rfl, rfl⟩
  · have hd := docker_loop_ok rname uri tags
    have heff : (if tags = [] then ["latest"] else tags) = tags :=
      if_neg htags
    simp only [build_and_push, heff, htags, if_false]
    simp [hd.1, hd.2.1, hd.2.2]

/-- Claim C3, evaluation of the code at the failing input: with a
dependency manifest given and a build context initially lacking
`requirements.txt`, the transient copy is still present in the build
context after a fully successful build-and-push (the removal at
line 62 is guarded by the file NOT existing, which is false after the
copy), and after a failed build the cleanup step is not reached at
all. -/
theorem c3_code_eval :
    (build_and_push [("/home/u/req.txt", "numpy")] "repo" "uri" "/ctx"
        (some "/home/u/req.txt") ["latest"] (fun _ => true)) =
      ([("/ctx/requirements.txt", "numpy"), ("/home/u/req.txt", "numpy")],
        [DockerEv.build "repo:latest", DockerEv.tagImage "uri" "latest",
          DockerEv.push "uri" "latest"], BPOutcome.ok) ∧
    isfile (build_and_push [("/home/u/req.txt", "numpy")] "repo" "uri"
        "/ctx" (some "/home/u/req.txt") ["latest"] (fun _ => true)).1
      "/ctx/requirements.txt" = true ∧
    isfile (build_and_push [("/home/u/req.txt", "numpy")] "repo" "uri"
        "/ctx" (some "/home/u/req.txt") ["latest"] (fun _ => false)).1
      "/ctx/requirements.txt" = true ∧
    (build_and_push [("/home/u/req.txt", "numpy")] "repo" "uri" "/ctx"
        (some "/home/u/req.txt") ["latest"] (fun _ => false)).2.2 =
      BPOutcome.buildFailure := by
  exact ⟨rfl, rfl, rfl, rfl⟩

/-- Claim C10: when the build context already holds a
`requirements.txt`, `build_and_push` leaves the filesystem exactly as
it found it — the manifest is copied only when no `requirements.txt`
is present, so the pre-existing file is never overwritten. -/
theorem c10_no_overwrite (fs : List (String × String))
    (rname uri bp : String) (rq : Option String) (tags : List String)
    (ok : String → Bool)
    (h : isfile fs (bp ++ "/requirements.txt") = true) :
    (build_and_push fs rname uri bp rq tags ok).1 = fs := by
  cases rq with
  | none =>
    simp only [build_and_push]
    by_cases hd : (docker_loop rname uri ok
        (if tags = [] then ["latest"] else tags)).2 = false <;>
      simp [hd]
  | some r =>
    simp only [build_and_push, h]
    by_cases hd : (docker_loop rname uri ok
        (if tags = [] then ["latest"] else tags)).2 = false <;>
      simp [hd, h]

/-- Witness for C10: a context that already holds `requirements.txt`
with content `old` is untouched by a call that supplies a manifest. -/
theorem c10_no_overwrite_witness :
    (build_and_push [("/ctx/requirements.txt", "old")] "r" "u" "/ctx"
        (some "/m") ["latest"] (fun _ => true)).1 =
      [("/ctx/requirements.txt", "old")] := by
  exact c10_no_overwrite [("/ctx/requirements.txt", "old")] "r" "u"
    "/ctx" (some "/m") ["latest"] (fun _ => true) (by rfl)

end PyAFQ
